import Mathlib

/-
Verification development for the uniswap-lp-analytics repository.

Shallow embedding conventions:
  BigInt (arbitrary-precision integer)  -> Int
  BigDecimal (arbitrary-precision decimal) -> Rat
  AssemblyScript i32 values obtained via BigInt.toI32 -> Int wrapped with toI32
  AssemblyScript i32 division -> Int.tdiv (truncation toward zero)
  entity stores (graph-node entity tables keyed by id strings) -> String to Option row
-/

/-- Wrap an arbitrary integer into the signed 32-bit range, as BigInt.toI32 does. -/
def toI32 (n : ℤ) : ℤ := (n + 2 ^ 31) % 2 ^ 32 - 2 ^ 31

/-- Source v3Pool.ts line 26: hourId computes ts.toI32() / 3600 with i32 division.
The same expression is computed inline by ensureHour in the other swap mapping. -/
def hourId (ts : ℤ) : ℤ := Int.tdiv (toI32 ts) 3600

/-- Source v3Pool.ts line 27: dayId computes ts.toI32() / 86400 with i32 division.
The same expression is computed inline by ensureDay in the other swap mapping. -/
def dayId (ts : ℤ) : ℤ := Int.tdiv (toI32 ts) 86400

/-- Source absBigInt: returns x when nonnegative, otherwise x * (-1). -/
def absBigInt (x : ℤ) : ℤ := if x < 0 then x * (-1) else x

/-- Source exponentToBigDecimal (v3Pool.ts lines 17-24): starts from 1 and multiplies
by 10 once per loop iteration, so the result is 10 ^ decimals for nonnegative
decimals and 1 when decimals is not positive (the loop body never runs). -/
def exponentToBigDecimal (decimals : ℤ) : ℚ := (10 : ℚ) ^ decimals.toNat

/-- Source pow10BD (swap mapping lines 9-15): same loop as exponentToBigDecimal. -/
def pow10BD (decimals : ℤ) : ℚ := (10 : ℚ) ^ decimals.toNat

/-- Source toDecimal (swap mapping lines 17-21): convert the BigInt amount to
BigDecimal and divide by 10 ^ decimals. -/
def toDecimal (amount : ℤ) (decimals : ℤ) : ℚ := (amount : ℚ) / pow10BD decimals

/-- Source v3Pool.ts line 6. -/
def USDC : String := "0xa0b86991c6218b36c1d19d4a2e9eb0ce3606eb48"

/-- Source v3Pool.ts line 7. -/
def USDT : String := "0xdac17f958d2ee523a2206206994597c13d831ec7"

/-- String.toLowerCase of AssemblyScript, written as a structural map over the
character list so that it evaluates inside the kernel. -/
def toLowerCase (s : String) : String := String.mk (s.data.map Char.toLower)

/-- Source isStable (v3Pool.ts lines 8-11): case-insensitive comparison of the
address against the two configured stable-asset addresses. -/
def isStable (addr : String) : Bool :=
  let a := toLowerCase addr
  a == USDC || a == USDT

/-- Source pricesFromSqrt (v3Pool.ts lines 84-100): square the sqrt price, divide
by 2 ^ 192, apply the decimal adjustment 10 ^ dec0 / 10 ^ dec1 to get price0
(token1 per 1 token0); price1 is the guarded reciprocal, with an explicit
zero branch returning the pair (0, 0). -/
def pricesFromSqrt (sqrtPriceX96 : ℤ) (token0Decimals token1Decimals : ℤ) : ℚ × ℚ :=
  let Q192 : ℤ := 2 ^ 192
  let num : ℚ := ((sqrtPriceX96 * sqrtPriceX96 : ℤ) : ℚ)
  let denom : ℚ := (Q192 : ℚ)
  let ratio : ℚ := num / denom
  let adj : ℚ := exponentToBigDecimal token0Decimals / exponentToBigDecimal token1Decimals
  let p0 : ℚ := ratio * adj
  if p0 = 0 then ((0 : ℚ), (0 : ℚ)) else (p0, (1 : ℚ) / p0)

/-- Token entity; only the attribute read by the swap handlers (decimals) is carried. -/
structure TokenE where
  decimals : ℤ
deriving DecidableEq

/-- Pool entity; only the attributes read by the swap handlers are carried. -/
structure PoolE where
  token0 : String
  token1 : String
deriving DecidableEq

/-- PoolDayData entity row, with the numeric fields the mappings write. -/
structure PoolDayDataE where
  pool : String
  date : ℤ
  volumeToken0 : ℚ
  volumeToken1 : ℚ
  swapCount : ℤ
  volumeUSD : ℚ
  feesUSD : ℚ
  tvlUSD : ℚ
deriving DecidableEq

/-- PoolHourData entity row, with the numeric fields the mappings write. -/
structure PoolHourDataE where
  pool : String
  hourStartUnix : ℤ
  volumeToken0 : ℚ
  volumeToken1 : ℚ
  swapCount : ℤ
  volumeUSD : ℚ
  feesUSD : ℚ
  tvlUSD : ℚ
deriving DecidableEq

/-- PoolPriceHour entity row. -/
structure PoolPriceHourE where
  pool : String
  hourStartUnix : ℤ
  sqrtPriceX96 : ℤ
  price0 : ℚ
  price1 : ℚ
  liquidity : ℤ
  updatedAt : ℤ
deriving DecidableEq

/-- The persisted entity tables touched by the swap handlers, keyed by id string.
Load is function application; save is a pointwise update. -/
structure Store where
  pools : String → Option PoolE
  tokens : String → Option TokenE
  days : String → Option PoolDayDataE
  hours : String → Option PoolHourDataE
  priceHours : String → Option PoolPriceHourE

/-- Pointwise update of one entity table, modelling entity.save(). -/
def upd {α : Type} (f : String → Option α) (k : String) (v : α) : String → Option α :=
  fun s => if s = k then some v else f s

/-- Id string of a day bucket row: poolId, a dash, and the decimal day index. -/
def dayKey (poolId : String) (ts : ℤ) : String := poolId ++ "-" ++ toString (dayId ts)

/-- Id string of an hour bucket row: poolId, a dash, and the decimal hour index. -/
def hourKey (poolId : String) (ts : ℤ) : String := poolId ++ "-" ++ toString (hourId ts)

/-- Swap event payload as delivered to the handlers. The address field stands for
event.address.toHex(), already a hex string. -/
structure SwapEvent where
  address : String
  amount0 : ℤ
  amount1 : ℤ
  sqrtPriceX96 : ℤ
  liquidity : ℤ
  timestamp : ℤ
deriving DecidableEq

namespace V3

/-- Source v3Pool.ts ensurePoolDayData (lines 29-44): load the day row by id or
build a fresh one with zeroed numeric fields; no save happens here. -/
def ensurePoolDayData (w : Store) (poolId : String) (ts : ℤ) : PoolDayDataE :=
  match w.days (dayKey poolId ts) with
  | some p => p
  | none => { pool := poolId, date := dayId ts, volumeToken0 := 0, volumeToken1 := 0,
              swapCount := 0, volumeUSD := 0, feesUSD := 0, tvlUSD := 0 }

/-- Source v3Pool.ts ensurePoolHourData (lines 46-61): load the hour row by id or
build a fresh one with zeroed numeric fields; no save happens here. -/
def ensurePoolHourData (w : Store) (poolId : String) (ts : ℤ) : PoolHourDataE :=
  match w.hours (hourKey poolId ts) with
  | some p => p
  | none => { pool := poolId, hourStartUnix := hourId ts, volumeToken0 := 0, volumeToken1 := 0,
              swapCount := 0, volumeUSD := 0, feesUSD := 0, tvlUSD := 0 }

/-- Source v3Pool.ts ensurePriceHour (lines 63-77): load the price row by id or
build a fresh zeroed one; no save happens here. -/
def ensurePriceHour (w : Store) (poolId : String) (ts : ℤ) : PoolPriceHourE :=
  match w.priceHours (hourKey poolId ts) with
  | some ph => ph
  | none => { pool := poolId, hourStartUnix := hourId ts, sqrtPriceX96 := 0,
              price0 := 0, price1 := 0, liquidity := 0, updatedAt := 0 }

/-- Source v3Pool.ts handleSwap (lines 102-153). The bal argument stands for the
safeBalanceOf collaborator (token address, owner address to raw balance).
The values p0 and p1 are used at lines 133-134, 145 and 147 of the source but
their binding does not appear anywhere in the file; that one binding is
Modelled from the spec: step 6 of the processor computes spot prices via
PriceOracle from the sqrt-price field of the event and the two token decimal
counts, which is exactly pricesFromSqrt applied to those three inputs.
Every other line is translated from the source. -/
def handleSwap (bal : String → String → ℤ) (w : Store) (e : SwapEvent) : Store :=
  let poolId := toLowerCase e.address
  match w.pools poolId with
  | none => w
  | some pool =>
    let day := ensurePoolDayData w poolId e.timestamp
    let hour := ensurePoolHourData w poolId e.timestamp
    let v0 : ℚ := (absBigInt e.amount0 : ℚ)
    let v1 : ℚ := (absBigInt e.amount1 : ℚ)
    match w.tokens pool.token0, w.tokens pool.token1 with
    | some t0, some t1 =>
      let d0 := exponentToBigDecimal t0.decimals
      let d1 := exponentToBigDecimal t1.decimals
      let day1 := { day with volumeToken0 := day.volumeToken0 + v0 / d0,
                             volumeToken1 := day.volumeToken1 + v1 / d1,
                             swapCount := day.swapCount + 1 }
      let w1 := { w with days := upd w.days (dayKey poolId e.timestamp) day1 }
      let hour1 := { hour with volumeToken0 := hour.volumeToken0 + v0 / d0,
                               volumeToken1 := hour.volumeToken1 + v1 / d1,
                               swapCount := hour.swapCount + 1 }
      let w2 := { w1 with hours := upd w1.hours (hourKey poolId e.timestamp) hour1 }
      let ph := ensurePriceHour w2 poolId e.timestamp
      let pr := pricesFromSqrt e.sqrtPriceX96 t0.decimals t1.decimals
      let ph1 := { ph with sqrtPriceX96 := e.sqrtPriceX96, price0 := pr.1, price1 := pr.2,
                           liquidity := e.liquidity, updatedAt := toI32 e.timestamp }
      let w3 := { w2 with priceHours := upd w2.priceHours (hourKey poolId e.timestamp) ph1 }
      let bal0Raw := bal pool.token0 e.address
      let bal1Raw := bal pool.token1 e.address
      let amt0 := (bal0Raw : ℚ) / exponentToBigDecimal t0.decimals
      let amt1 := (bal1Raw : ℚ) / exponentToBigDecimal t1.decimals
      let tvlUSD : ℚ :=
        if isStable pool.token0 && !(isStable pool.token1) then amt0 + amt1 * pr.2
        else if isStable pool.token1 && !(isStable pool.token0) then amt1 + amt0 * pr.1
        else 0
      let day2 := { day1 with tvlUSD := tvlUSD }
      let w4 := { w3 with days := upd w3.days (dayKey poolId e.timestamp) day2 }
      let hour2 := { hour1 with tvlUSD := tvlUSD }
      { w4 with hours := upd w4.hours (hourKey poolId e.timestamp) hour2 }
    | _, _ => w

end V3

namespace Uni

/-- Source swap mapping ensureDay (lines 23-39): load the day row by id or build
a fresh one with zeroed numeric fields; no save happens here. -/
def ensureDay (w : Store) (poolId : String) (ts : ℤ) : PoolDayDataE :=
  match w.days (dayKey poolId ts) with
  | some ent => ent
  | none => { pool := poolId, date := dayId ts, volumeToken0 := 0, volumeToken1 := 0,
              swapCount := 0, volumeUSD := 0, feesUSD := 0, tvlUSD := 0 }

/-- Source swap mapping ensureHour (lines 41-57): load the hour row by id or build
a fresh one with zeroed numeric fields; no save happens here. -/
def ensureHour (w : Store) (poolId : String) (ts : ℤ) : PoolHourDataE :=
  match w.hours (hourKey poolId ts) with
  | some ent => ent
  | none => { pool := poolId, hourStartUnix := hourId ts, volumeToken0 := 0, volumeToken1 := 0,
              swapCount := 0, volumeUSD := 0, feesUSD := 0, tvlUSD := 0 }

/-- Source swap mapping handleSwap (lines 59-87): resolve pool and tokens with
silent discard, take absolute amounts, scale by decimals, and add volumes and
swap count into the day and hour buckets. -/
def handleSwap (w : Store) (e : SwapEvent) : Store :=
  let poolId := toLowerCase e.address
  match w.pools poolId with
  | none => w
  | some pool =>
    match w.tokens pool.token0, w.tokens pool.token1 with
    | some token0, some token1 =>
      let a0Abs := absBigInt e.amount0
      let a1Abs := absBigInt e.amount1
      let amt0 := toDecimal a0Abs token0.decimals
      let amt1 := toDecimal a1Abs token1.decimals
      let day := ensureDay w poolId e.timestamp
      let hour := ensureHour w poolId e.timestamp
      let day1 := { day with volumeToken0 := day.volumeToken0 + amt0,
                             volumeToken1 := day.volumeToken1 + amt1,
                             swapCount := day.swapCount + 1 }
      let w1 := { w with days := upd w.days (dayKey poolId e.timestamp) day1 }
      let hour1 := { hour with volumeToken0 := hour.volumeToken0 + amt0,
                               volumeToken1 := hour.volumeToken1 + amt1,
                               swapCount := hour.swapCount + 1 }
      { w1 with hours := upd w1.hours (hourKey poolId e.timestamp) hour1 }
    | _, _ => w

/-- The hour bucket id touched by an event: the lowercased pool id joined with the
hour index of the event timestamp. -/
def eHourKey (e : SwapEvent) : String := hourKey (toLowerCase e.address) e.timestamp

/-- An event resolves when its pool is known and both referenced tokens are known. -/
def resolvesB (w : Store) (e : SwapEvent) : Bool :=
  match w.pools (toLowerCase e.address) with
  | none => false
  | some pool => (w.tokens pool.token0).isSome && (w.tokens pool.token1).isSome

/-- Decimal-adjusted absolute token0 amount of an event under the pool and token
tables of w; 0 when the event does not resolve. -/
def amt0 (w : Store) (e : SwapEvent) : ℚ :=
  match w.pools (toLowerCase e.address) with
  | none => 0
  | some pool =>
    match w.tokens pool.token0 with
    | none => 0
    | some t => toDecimal (absBigInt e.amount0) t.decimals

/-- Decimal-adjusted absolute token1 amount of an event under the pool and token
tables of w; 0 when the event does not resolve. -/
def amt1 (w : Store) (e : SwapEvent) : ℚ :=
  match w.pools (toLowerCase e.address) with
  | none => 0
  | some pool =>
    match w.tokens pool.token1 with
    | none => 0
    | some t => toDecimal (absBigInt e.amount1) t.decimals

end Uni

/-- SQL CASE WHEN condition on a nullable boolean from a left join: only a
non-null true value takes the branch. -/
def sqlCond (b : Option Bool) : Bool :=
  match b with
  | some true => true
  | _ => false

/-- Source view DO-block (part_000 lines 40-42): the fees_usd expression of
v_pool_hour_fees_usd_partial. CASE WHEN rs0.is_stable THEN the fee0 column
WHEN rs1.is_stable THEN the fee1 column ELSE NULL END. -/
def vPoolHourFeesUsd (rs0 rs1 : Option Bool) (f0 f1 : ℚ) : Option ℚ :=
  if sqlCond rs0 then some f0
  else if sqlCond rs1 then some f1
  else none

/-- Source view DO-block (part_000 lines 96-98): the fees_usd expression of
v_pool_day_fees_usd_partial, textually the same CASE as the hour view. -/
def vPoolDayFeesUsd (rs0 rs1 : Option Bool) (f0 f1 : ℚ) : Option ℚ :=
  if sqlCond rs0 then some f0
  else if sqlCond rs1 then some f1
  else none

/-- One character step of the SQL LIKE prefix test: an underscore in the pattern
matches any single character, anything else matches itself. -/
def likeStarts : List Char → List Char → Bool
  | [], _ => true
  | _ :: _, [] => false
  | p :: ps, c :: cs => (p = '_' || p = c) && likeStarts ps cs

/-- The LIKE patterns of the resolver all have the shape body followed by a
percent sign, so a name matches exactly when the body matches a leading
segment of the name character by character. -/
def matchesLike (patBody : String) (s : String) : Bool :=
  likeStarts patBody.data s.data

/-- Exact-name list of the fee0 role (part_000 lines 8 and 61). -/
def exactF0 : List String :=
  ["f0", "fee0", "fees0", "fee_token0", "fees_token0", "token0_fee", "token0_fees",
   "collected_fee0", "collected_fees0"]

/-- LIKE pattern bodies of the fee0 role (part_000 lines 9-11 and 62-64). -/
def likeF0 : List String :=
  ["fee0", "fees0", "fee_token0", "fees_token0", "token0_fee", "token0_fees"]

/-- Exact-name list of the fee1 role (part_000 lines 17 and 70). -/
def exactF1 : List String :=
  ["f1", "fee1", "fees1", "fee_token1", "fees_token1", "token1_fee", "token1_fees",
   "collected_fee1", "collected_fees1"]

/-- LIKE pattern bodies of the fee1 role (part_000 lines 18-20 and 71-73). -/
def likeF1 : List String :=
  ["fee1", "fees1", "fee_token1", "fees_token1", "token1_fee", "token1_fees"]

/-- Candidate names of the hour time role (part_000 line 26). -/
def timeHourCands : List String :=
  ["hour_start_unix", "hour_start", "hour_ts", "ts", "timestamp", "ts_unix", "started_at"]

/-- Candidate names of the day date role (part_000 line 79). -/
def dateDayCands : List String :=
  ["date", "day", "day_start", "day_start_unix", "started_at"]

/-- A column name matches the fee0 role when it is in the exact list or matches
one of the LIKE patterns; the single WHERE clause of the source tests both
together with OR. -/
def matchesF0 (n : String) : Bool :=
  exactF0.contains n || likeF0.any (fun p => matchesLike p n)

/-- A column name matches the fee1 role when it is in the exact list or matches
one of the LIKE patterns. -/
def matchesF1 (n : String) : Bool :=
  exactF1.contains n || likeF1.any (fun p => matchesLike p n)

/-- A column name matches the hour time role when it is in the candidate list. -/
def matchesTimeHour (n : String) : Bool := timeHourCands.contains n

/-- One row of information_schema.columns for the introspected table. -/
structure ColumnInfo where
  name : String
  ordinal : ℕ
  dataType : String
deriving DecidableEq

/-- Running minimum by ordinal position, realising ORDER BY ordinal_position
LIMIT 1 over the matching columns. -/
def pickMin (acc : Option ColumnInfo) (c : ColumnInfo) : Option ColumnInfo :=
  match acc with
  | none => some c
  | some b => if c.ordinal < b.ordinal then some c else some b

/-- SELECT column_name WHERE role-match ORDER BY ordinal_position LIMIT 1:
among the columns whose name matches, keep the one with the smallest ordinal
position (the first such, though ordinals are unique in a table). -/
def resolveRole (m : String → Bool) (cols : List ColumnInfo) : Option ColumnInfo :=
  (cols.filter (fun c => m c.name)).foldl pickMin none

/-- Follows the wording of the claim, not the source: the exact-name allow-list
is tested first over the whole table, and the patterns are consulted only when
no exact name occurs anywhere. -/
def resolveRoleClaimed (exs : List String) (pats : List String)
    (cols : List ColumnInfo) : Option ColumnInfo :=
  match resolveRole (fun n => exs.contains n) cols with
  | some c => some c
  | none => resolveRole (fun n => pats.any (fun p => matchesLike p n)) cols

/-- Declared types for which the source applies to_timestamp to the time column
(part_000 lines 37 and 86). -/
def integralTypes : List String := ["integer", "bigint", "numeric"]

/-- The resolved identifiers from which the hour view text is generated. -/
structure HourViewDef where
  colF0 : String
  colF1 : String
  colTime : String
  timeIsIntegral : Bool
deriving DecidableEq

/-- Source first DO-block of part_000: resolve the fee0, fee1 and time columns of
pool_hour_data; if any role is unresolved raise the missing-columns exception
(lines 29-31), otherwise emit the view definition. -/
def synthPoolHourView (cols : List ColumnInfo) : Except String HourViewDef :=
  let f0 := resolveRole matchesF0 cols
  let f1 := resolveRole matchesF1 cols
  let t := resolveRole matchesTimeHour cols
  match f0, f1, t with
  | some c0, some c1, some ct =>
    Except.ok { colF0 := c0.name, colF1 := c1.name, colTime := ct.name,
                timeIsIntegral := integralTypes.contains ct.dataType }
  | _, _, _ => Except.error "Required columns not found in pool_hour_data (fee0, fee1, time)"

/-- The pool_hour_data schema of the repository itself (part_005 lines 14-23),
with physical column order. -/
def poolHourDataCols : List ColumnInfo :=
  [{ name := "id", ordinal := 1, dataType := "text" },
   { name := "pool_id", ordinal := 2, dataType := "text" },
   { name := "hour_start_unix", ordinal := 3, dataType := "integer" },
   { name := "volume_token0", ordinal := 4, dataType := "numeric" },
   { name := "volume_token1", ordinal := 5, dataType := "numeric" },
   { name := "approx_fee_token0", ordinal := 6, dataType := "numeric" },
   { name := "approx_fee_token1", ordinal := 7, dataType := "numeric" },
   { name := "swap_count", ordinal := 8, dataType := "integer" }]

/-- The table from the testable-properties section of the spec, used to witness
the amended C5. -/
def fees0RawCols : List ColumnInfo :=
  [{ name := "fees0_raw", ordinal := 1, dataType := "numeric" },
   { name := "fees1_raw", ordinal := 2, dataType := "numeric" },
   { name := "hour_start_unix", ordinal := 3, dataType := "integer" }]

/-- An empty state used to witness the discard behaviours. -/
def emptyStore : Store :=
  { pools := fun _ => none, tokens := fun _ => none, days := fun _ => none,
    hours := fun _ => none, priceHours := fun _ => none }

/-- A swap event against a pool id that no store entry matches. -/
def orphanEvent : SwapEvent :=
  { address := "0xdead", amount0 := 1, amount1 := -2, sqrtPriceX96 := 3,
    liquidity := 4, timestamp := 5 }

/-- State with one resolvable pool p over tokens a (18 decimals) and b
(6 decimals) and no bucket rows, used to witness C3. -/
def snapshotStore : Store :=
  { pools := fun s => if s = "p" then some { token0 := "a", token1 := "b" } else none,
    tokens := fun s =>
      if s = "a" then some { decimals := 18 }
      else if s = "b" then some { decimals := 6 } else none,
    days := fun _ => none, hours := fun _ => none, priceHours := fun _ => none }

/-- A swap event on pool p used to witness C3. -/
def snapshotEvent : SwapEvent :=
  { address := "p", amount0 := -5, amount1 := 7, sqrtPriceX96 := 2 ^ 96,
    liquidity := 11, timestamp := 7200 }

/-- A swap event on pool p whose timestamp is 2 ^ 31, past the i32 range. -/
def wrapEvent : SwapEvent :=
  { address := "p", amount0 := -5, amount1 := 7, sqrtPriceX96 := 2 ^ 96,
    liquidity := 11, timestamp := 2147483648 }

/-- Previous hour row with a nonzero TVL, used to exhibit the C2 divergence. -/
def prevHourRow : PoolHourDataE :=
  { pool := "p", hourStartUnix := 0, volumeToken0 := 0, volumeToken1 := 0,
    swapCount := 0, volumeUSD := 0, feesUSD := 0, tvlUSD := 5 }

/-- Previous day row with a nonzero TVL, used to exhibit the C2 divergence. -/
def prevDayRow : PoolDayDataE :=
  { pool := "p", date := 0, volumeToken0 := 0, volumeToken1 := 0,
    swapCount := 0, volumeUSD := 0, feesUSD := 0, tvlUSD := 5 }

/-- State whose pool p pairs two non-stable tokens and whose bucket rows carry
TVL 5 from an earlier update. -/
def tvlStore : Store :=
  { pools := fun s => if s = "p" then some { token0 := "a", token1 := "b" } else none,
    tokens := fun s =>
      if s = "a" then some { decimals := 0 }
      else if s = "b" then some { decimals := 0 } else none,
    days := fun s => if s = dayKey "p" 0 then some prevDayRow else none,
    hours := fun s => if s = hourKey "p" 0 then some prevHourRow else none,
    priceHours := fun _ => none }

/-- A swap event on the non-stable pool p at timestamp 0. -/
def tvlEvent : SwapEvent :=
  { address := "p", amount0 := 1, amount1 := 1, sqrtPriceX96 := 0,
    liquidity := 0, timestamp := 0 }

/-- One application of the volume update to an optional hour row: create the
zeroed row on first reference, then add the decimal-adjusted absolute
amounts and bump the swap count. -/
def Uni.applyOne (w0 : Store) (o : Option PoolHourDataE) (e : SwapEvent) : PoolHourDataE :=
  let base := match o with
    | some r => r
    | none => { pool := toLowerCase e.address, hourStartUnix := hourId e.timestamp,
                volumeToken0 := 0, volumeToken1 := 0, swapCount := 0,
                volumeUSD := 0, feesUSD := 0, tvlUSD := 0 }
  { base with volumeToken0 := base.volumeToken0 + Uni.amt0 w0 e,
              volumeToken1 := base.volumeToken1 + Uni.amt1 w0 e,
              swapCount := base.swapCount + 1 }

/-- State with one resolvable pool p over two zero-decimals tokens, used to
witness C6. -/
def volStore : Store :=
  { pools := fun s => if s = "p" then some { token0 := "a", token1 := "b" } else none,
    tokens := fun s =>
      if s = "a" then some { decimals := 0 }
      else if s = "b" then some { decimals := 0 } else none,
    days := fun _ => none, hours := fun _ => none, priceHours := fun _ => none }

/-- First swap on pool p inside hour bucket 0. -/
def volEvent1 : SwapEvent :=
  { address := "p", amount0 := 2, amount1 := -3, sqrtPriceX96 := 0,
    liquidity := 0, timestamp := 0 }

/-- Interleaved swap on an unknown pool q, touching a different bucket key. -/
def volEventOther : SwapEvent :=
  { address := "q", amount0 := 100, amount1 := 100, sqrtPriceX96 := 0,
    liquidity := 0, timestamp := 0 }

/-- Second swap on pool p inside the same hour bucket 0. -/
def volEvent2 : SwapEvent :=
  { address := "p", amount0 := -4, amount1 := 5, sqrtPriceX96 := 0,
    liquidity := 0, timestamp := 1800 }

example : matchesF0 "fees0_raw" = true := by decide
example : matchesF0 "approx_fee_token0" = false := by decide
example : matchesTimeHour "hour_start_unix" = true := by decide

example : hourId 7200 = 2 := by decide
example : dayId 86400 = 1 := by decide
example : toDecimal 123000000 6 = 123 := by
  norm_num [toDecimal, pow10BD, Int.toNat]
example : isStable "0xA0B86991c6218b36c1d19D4a2e9Eb0cE3606eB48" = true := by decide
example : pricesFromSqrt 0 18 6 = (0, 0) := by norm_num [pricesFromSqrt]

/-- The i32 wrap is the identity on timestamps below 2 ^ 31. -/
lemma toI32_of_lt (ts : ℤ) (h0 : 0 ≤ ts) (h1 : ts < 2 ^ 31) : toI32 ts = ts := by
  unfold toI32
  rw [Int.emod_eq_of_lt (by omega) (by omega)]
  omega

/-- C4: for every sqrtP and decimal counts, pricesFromSqrt returns
price0 = (sqrtP * sqrtP / 2 ^ 192) * (10 ^ dec0 / 10 ^ dec1); when price0 is
nonzero it returns price1 = 1 / price0; when price0 is zero it returns the
pair (0, 0) through the explicit guard, never reaching the reciprocal; the
function is a pure function of its three inputs. -/
theorem pricesFromSqrt_spec (s d0 d1 : ℤ) :
    (pricesFromSqrt s d0 d1).1
      = ((s * s : ℤ) : ℚ) / (2 : ℚ) ^ 192 * ((10 : ℚ) ^ d0.toNat / (10 : ℚ) ^ d1.toNat)
    ∧ (((s * s : ℤ) : ℚ) / (2 : ℚ) ^ 192 * ((10 : ℚ) ^ d0.toNat / (10 : ℚ) ^ d1.toNat) ≠ 0 →
        (pricesFromSqrt s d0 d1).2
          = 1 / (((s * s : ℤ) : ℚ) / (2 : ℚ) ^ 192 * ((10 : ℚ) ^ d0.toNat / (10 : ℚ) ^ d1.toNat)))
    ∧ (((s * s : ℤ) : ℚ) / (2 : ℚ) ^ 192 * ((10 : ℚ) ^ d0.toNat / (10 : ℚ) ^ d1.toNat) = 0 →
        pricesFromSqrt s d0 d1 = (0, 0)) := by
  have hform : ((s * s : ℤ) : ℚ) / (((2 ^ 192 : ℤ) : ℚ)) * (exponentToBigDecimal d0 / exponentToBigDecimal d1)
      = ((s * s : ℤ) : ℚ) / (2 : ℚ) ^ 192 * ((10 : ℚ) ^ d0.toNat / (10 : ℚ) ^ d1.toNat) := by
    unfold exponentToBigDecimal
    push_cast
    ring
  simp only [pricesFromSqrt, hform]
  split_ifs with h
  · exact ⟨h.symm, fun hne => absurd h hne, fun _ => rfl⟩
  · exact ⟨rfl, fun _ => rfl, fun h0 => absurd h0 h⟩

/-- Witness for C4 at sqrtP = 0 (degenerate branch) and sqrtP = 2 ^ 96 with equal
decimals (reciprocal branch). -/
theorem pricesFromSqrt_spec_witness :
    pricesFromSqrt 0 18 6 = (0, 0)
    ∧ (pricesFromSqrt (2 ^ 96) 0 0).2
      = 1 / (((2 ^ 96 * 2 ^ 96 : ℤ) : ℚ) / (2 : ℚ) ^ 192
              * ((10 : ℚ) ^ (0 : ℤ).toNat / (10 : ℚ) ^ (0 : ℤ).toNat)) :=
  ⟨(pricesFromSqrt_spec 0 18 6).2.2 (by norm_num),
   (pricesFromSqrt_spec (2 ^ 96) 0 0).2.1 (by push_cast; norm_num)⟩

/-- C8: for a nonnegative raw integer amount and a decimal count between 0 and 36,
scaling by 10 ^ d and multiplying back recovers the original integer exactly,
both for toDecimal with pow10BD and for the direct division by
exponentToBigDecimal used in the v3 mapping. -/
theorem toDecimal_roundtrip (raw d : ℤ) (hraw : 0 ≤ raw) (hd0 : 0 ≤ d) (hd : d ≤ 36) :
    toDecimal raw d * pow10BD d = (raw : ℚ)
    ∧ ((raw : ℚ) / exponentToBigDecimal d) * exponentToBigDecimal d = (raw : ℚ) := by
  have h1 : pow10BD d ≠ 0 := by
    unfold pow10BD
    positivity
  have h2 : exponentToBigDecimal d ≠ 0 := by
    unfold exponentToBigDecimal
    positivity
  exact ⟨div_mul_cancel₀ _ h1, div_mul_cancel₀ _ h2⟩

/-- Witness for C8 at raw = 123456 and d = 6. -/
theorem toDecimal_roundtrip_witness :
    toDecimal 123456 6 * pow10BD 6 = (123456 : ℚ)
    ∧ ((123456 : ℚ) / exponentToBigDecimal 6) * exponentToBigDecimal 6 = (123456 : ℚ) :=
  toDecimal_roundtrip 123456 6 (by decide) (by decide) (by decide)

/-- C9 counterexample: at timestamp 2 ^ 31 the i32 conversion wraps to a negative
value, so the computed hour and day indices are negative and differ from the
mathematical floor of timestamp / 3600 and timestamp / 86400. -/
theorem bucket_index_wraps_cex :
    hourId 2147483648 = -596523
    ∧ dayId 2147483648 = -24855
    ∧ (2147483648 : ℤ) / 3600 = 596523
    ∧ (2147483648 : ℤ) / 86400 = 24855
    ∧ ¬ hourId 2147483648 = (2147483648 : ℤ) / 3600
    ∧ ¬ dayId 2147483648 = (2147483648 : ℤ) / 86400 := by decide

/-- C9 amended: for timestamps in [0, 2 ^ 31) the hour bucket index equals
floor(ts / 3600) and the day bucket index equals floor(ts / 86400); at or
beyond 2 ^ 31 the i32 conversion wraps and the computed indices diverge. -/
theorem bucket_index_floor_amended (ts : ℤ) (h0 : 0 ≤ ts) (h1 : ts < 2 ^ 31) :
    hourId ts = ts / 3600 ∧ dayId ts = ts / 86400 := by
  unfold hourId dayId
  rw [toI32_of_lt ts h0 h1]
  exact ⟨Int.tdiv_eq_ediv h0 (by omega), Int.tdiv_eq_ediv h0 (by omega)⟩

/-- Witness for the amended C9 at ts = 90000. -/
theorem bucket_index_floor_amended_witness :
    hourId 90000 = (90000 : ℤ) / 3600 ∧ dayId 90000 = (90000 : ℤ) / 86400 :=
  bucket_index_floor_amended 90000 (by decide) (by decide)

/-- C1 counterexample: when both sides are flagged stable the generated views
emit the raw fee0 amount, not NULL, contradicting the claim that the USD fee
is indeterminate whenever both or neither side is stable. -/
theorem vFeesUsd_both_stable_cex :
    vPoolHourFeesUsd (some true) (some true) 3 7 = some 3
    ∧ vPoolDayFeesUsd (some true) (some true) 3 7 = some 3
    ∧ vPoolHourFeesUsd (some true) (some true) 3 7 ≠ none
    ∧ vPoolDayFeesUsd (some true) (some true) 3 7 ≠ none :=
  ⟨rfl, rfl, fun h => Option.noConfusion h, fun h => Option.noConfusion h⟩

/-- C1 amended: the CASE of both generated views tests the token0 stability flag
first and does not require token1 to be non-stable: if token0 is stable the
USD fee is the raw fee0 amount even when token1 is also stable; otherwise if
token1 is stable it is the raw fee1 amount; when neither flag is a non-null
true the USD fee is NULL, never zero. -/
theorem vFeesUsd_stable_side_amended (rs0 rs1 : Option Bool) (f0 f1 : ℚ) :
    (sqlCond rs0 = true →
        vPoolHourFeesUsd rs0 rs1 f0 f1 = some f0 ∧ vPoolDayFeesUsd rs0 rs1 f0 f1 = some f0)
    ∧ (sqlCond rs0 = false → sqlCond rs1 = true →
        vPoolHourFeesUsd rs0 rs1 f0 f1 = some f1 ∧ vPoolDayFeesUsd rs0 rs1 f0 f1 = some f1)
    ∧ (sqlCond rs0 = false → sqlCond rs1 = false →
        vPoolHourFeesUsd rs0 rs1 f0 f1 = none ∧ vPoolDayFeesUsd rs0 rs1 f0 f1 = none) := by
  unfold vPoolHourFeesUsd vPoolDayFeesUsd
  refine ⟨fun h0 => ?_, fun h0 h1 => ?_, fun h0 h1 => ?_⟩ <;> simp [h0]
  · simp [h1]
  · simp [h1]

/-- Witness for the amended C1, exercising all three branches. -/
theorem vFeesUsd_stable_side_amended_witness :
    (vPoolHourFeesUsd (some true) none 3 7 = some 3
      ∧ vPoolDayFeesUsd (some true) none 3 7 = some 3)
    ∧ (vPoolHourFeesUsd none (some true) 3 7 = some 7
      ∧ vPoolDayFeesUsd none (some true) 3 7 = some 7)
    ∧ (vPoolHourFeesUsd none none 3 7 = none
      ∧ vPoolDayFeesUsd none none 3 7 = none) :=
  ⟨(vFeesUsd_stable_side_amended (some true) none 3 7).1 (by decide),
   (vFeesUsd_stable_side_amended none (some true) 3 7).2.1 (by decide) (by decide),
   (vFeesUsd_stable_side_amended none none 3 7).2.2 (by decide) (by decide)⟩

/-- Defining equation of pickMin on an empty accumulator. -/
lemma pickMin_none (c : ColumnInfo) : pickMin none c = some c := rfl

/-- pickMin keeps the new column when its ordinal is smaller. -/
lemma pickMin_some_lt (b c : ColumnInfo) (h : c.ordinal < b.ordinal) :
    pickMin (some b) c = some c := by
  simp [pickMin, h]

/-- pickMin keeps the accumulator when the new ordinal is not smaller. -/
lemma pickMin_some_ge (b c : ColumnInfo) (h : ¬ c.ordinal < b.ordinal) :
    pickMin (some b) c = some b := by
  simp [pickMin, h]

/-- pickMin never discards everything: folding from a some accumulator stays some. -/
lemma foldl_pickMin_some_ne_none :
    ∀ (l : List ColumnInfo) (b : ColumnInfo), l.foldl pickMin (some b) ≠ none := by
  intro l
  induction l with
  | nil => intro b h; exact Option.noConfusion h
  | cons x l ih =>
    intro b
    show l.foldl pickMin (pickMin (some b) x) ≠ none
    by_cases hlt : x.ordinal < b.ordinal
    · rw [pickMin_some_lt b x hlt]
      exact ih x
    · rw [pickMin_some_ge b x hlt]
      exact ih b

/-- Folding pickMin yields none exactly when it started from none over nothing. -/
lemma foldl_pickMin_none (l : List ColumnInfo) (h : l.foldl pickMin none = none) :
    l = [] := by
  cases l with
  | nil => rfl
  | cons x l =>
    exfalso
    have : l.foldl pickMin (pickMin none x) = none := h
    rw [show pickMin none x = some x from rfl] at this
    exact foldl_pickMin_some_ne_none l x this

/-- The result of folding pickMin is either the accumulator or a list element, is
no larger than the accumulator, and is no larger than any element. -/
lemma foldl_pickMin_min :
    ∀ (l : List ColumnInfo) (acc : Option ColumnInfo) (c : ColumnInfo),
      l.foldl pickMin acc = some c →
      (acc = some c ∨ c ∈ l)
      ∧ (∀ b, acc = some b → c.ordinal ≤ b.ordinal)
      ∧ (∀ x ∈ l, c.ordinal ≤ x.ordinal) := by
  intro l
  induction l with
  | nil =>
    intro acc c h
    have hac : acc = some c := h
    refine ⟨Or.inl hac, fun b hb => ?_, by simp⟩
    rw [hac] at hb
    cases hb
    exact le_refl _
  | cons x l ih =>
    intro acc c h
    have h' : l.foldl pickMin (pickMin acc x) = some c := h
    obtain ⟨h1, h2, h3⟩ := ih (pickMin acc x) c h'
    cases acc with
    | none =>
      rw [pickMin_none] at h1 h2
      have hcx : c.ordinal ≤ x.ordinal := h2 x rfl
      refine ⟨?_, by simp, fun y hy => ?_⟩
      · rcases h1 with h1 | h1
        · cases h1
          exact Or.inr (List.mem_cons_self _ _)
        · exact Or.inr (List.mem_cons_of_mem _ h1)
      · rcases List.mem_cons.mp hy with hy | hy
        · subst hy
          exact hcx
        · exact h3 y hy
    | some a =>
      by_cases hlt : x.ordinal < a.ordinal
      · rw [pickMin_some_lt a x hlt] at h1 h2
        have hcx : c.ordinal ≤ x.ordinal := h2 x rfl
        refine ⟨?_, fun b hb => ?_, fun y hy => ?_⟩
        · rcases h1 with h1 | h1
          · cases h1
            exact Or.inr (List.mem_cons_self _ _)
          · exact Or.inr (List.mem_cons_of_mem _ h1)
        · cases hb
          omega
        · rcases List.mem_cons.mp hy with hy | hy
          · subst hy
            exact hcx
          · exact h3 y hy
      · rw [pickMin_some_ge a x hlt] at h1 h2
        have hca : c.ordinal ≤ a.ordinal := h2 a rfl
        refine ⟨?_, fun b hb => ?_, fun y hy => ?_⟩
        · rcases h1 with h1 | h1
          · exact Or.inl h1
          · exact Or.inr (List.mem_cons_of_mem _ h1)
        · cases hb
          exact hca
        · rcases List.mem_cons.mp hy with hy | hy
          · subst hy
            omega
          · exact h3 y hy

/-- C5 amended: the resolver pools the exact names and the LIKE patterns into one
candidate set with no priority between them; the single selected column is a
matching column with the smallest ordinal position among all matches, and
when no column matches, nothing is selected. -/
theorem resolveRole_min_ordinal (m : String → Bool) (cols : List ColumnInfo) :
    (∀ c, resolveRole m cols = some c →
        m c.name = true ∧ c ∈ cols
        ∧ ∀ c2 ∈ cols, m c2.name = true → c.ordinal ≤ c2.ordinal)
    ∧ (resolveRole m cols = none → ∀ c2 ∈ cols, m c2.name = false) := by
  constructor
  · intro c h
    unfold resolveRole at h
    obtain ⟨h1, _, h3⟩ := foldl_pickMin_min _ _ _ h
    have hc : c ∈ cols.filter (fun c => m c.name) := by
      rcases h1 with h1 | h1
      · exact Option.noConfusion h1
      · exact h1
    have hmem := List.mem_filter.mp hc
    refine ⟨by simpa using hmem.2, hmem.1, fun c2 hc2 hm2 => ?_⟩
    exact h3 c2 (List.mem_filter.mpr ⟨hc2, by simpa using hm2⟩)
  · intro h c2 hc2
    unfold resolveRole at h
    have hnil := foldl_pickMin_none _ h
    by_contra hm
    have hm2 : m c2.name = true := by
      cases hval : m c2.name
      · exact absurd hval hm
      · rfl
    have : c2 ∈ cols.filter (fun c => m c.name) :=
      List.mem_filter.mpr ⟨hc2, by simpa using hm2⟩
    rw [hnil] at this
    exact absurd this (List.not_mem_nil _)


/-- Witness for the amended C5 on the fees0_raw table. -/
theorem resolveRole_min_ordinal_witness :
    matchesF0 "fees0_raw" = true
    ∧ ({ name := "fees0_raw", ordinal := 1, dataType := "numeric" } : ColumnInfo) ∈ fees0RawCols
    ∧ ∀ c2 ∈ fees0RawCols, matchesF0 c2.name = true →
        ({ name := "fees0_raw", ordinal := 1, dataType := "numeric" } : ColumnInfo).ordinal
          ≤ c2.ordinal :=
  (resolveRole_min_ordinal matchesF0 fees0RawCols).1
    { name := "fees0_raw", ordinal := 1, dataType := "numeric" } (by decide)

/-- C5 counterexample: a table whose first column fee0x only matches a prefix
pattern and whose second column fee0 is an exact-list name. The source query
selects fee0x by ordinal position, while the claimed exact-first priority
would select fee0, so exact-name matches are not preferred. -/
theorem resolveRole_exact_not_preferred_cex :
    resolveRole matchesF0
        [{ name := "fee0x", ordinal := 1, dataType := "numeric" },
         { name := "fee0", ordinal := 2, dataType := "numeric" }]
      = some { name := "fee0x", ordinal := 1, dataType := "numeric" }
    ∧ resolveRoleClaimed exactF0 likeF0
        [{ name := "fee0x", ordinal := 1, dataType := "numeric" },
         { name := "fee0", ordinal := 2, dataType := "numeric" }]
      = some { name := "fee0", ordinal := 2, dataType := "numeric" }
    ∧ exactF0.contains "fee0x" = false
    ∧ exactF0.contains "fee0" = true := by decide

/-- C10: on the own pool_hour_data schema of the repository the fee column names
approx_fee_token0 and approx_fee_token1 match no exact-name or prefix
candidate, both fee roles resolve to no column, the time role resolves to
hour_start_unix, and the synthesizer raises the missing-columns error, so no
view is produced. -/
theorem synth_hour_view_fails_on_own_schema :
    matchesF0 "approx_fee_token0" = false
    ∧ matchesF1 "approx_fee_token1" = false
    ∧ resolveRole matchesF0 poolHourDataCols = none
    ∧ resolveRole matchesF1 poolHourDataCols = none
    ∧ resolveRole matchesTimeHour poolHourDataCols
        = some { name := "hour_start_unix", ordinal := 3, dataType := "integer" }
    ∧ synthPoolHourView poolHourDataCols
        = Except.error "Required columns not found in pool_hour_data (fee0, fee1, time)" :=
  ⟨by decide, by decide, by decide, by decide, by decide, rfl⟩

/-- C7: a swap whose pool id does not resolve, or whose pool references an
unresolved token, is discarded silently by both swap handlers: the returned
state is exactly the input state, so nothing is created or modified. -/
theorem handleSwap_discards_unresolved
    (bal : String → String → ℤ) (w : Store) (e : SwapEvent) (w2 : Store) (e2 : SwapEvent)
    (h : w.pools (toLowerCase e.address) = none
         ∨ ∃ p, w.pools (toLowerCase e.address) = some p
             ∧ (w.tokens p.token0 = none ∨ w.tokens p.token1 = none))
    (h2 : w2.pools (toLowerCase e2.address) = none
         ∨ ∃ p, w2.pools (toLowerCase e2.address) = some p
             ∧ (w2.tokens p.token0 = none ∨ w2.tokens p.token1 = none)) :
    V3.handleSwap bal w e = w ∧ Uni.handleSwap w2 e2 = w2 := by
  constructor
  · rcases h with h | ⟨p, hp, ht⟩
    · simp [V3.handleSwap, h]
    · rcases ht with ht | ht
      · cases h1 : w.tokens p.token1 <;> simp [V3.handleSwap, hp, ht, h1]
      · cases h0 : w.tokens p.token0 <;> simp [V3.handleSwap, hp, ht, h0]
  · rcases h2 with h | ⟨p, hp, ht⟩
    · simp [Uni.handleSwap, h]
    · rcases ht with ht | ht
      · cases h1 : w2.tokens p.token1 <;> simp [Uni.handleSwap, hp, ht, h1]
      · cases h0 : w2.tokens p.token0 <;> simp [Uni.handleSwap, hp, ht, h0]



/-- Witness for C7: on the empty state the orphan event leaves the state of both handlers untouched. -/
theorem handleSwap_discards_unresolved_witness :
    V3.handleSwap (fun _ _ => 0) emptyStore orphanEvent = emptyStore
    ∧ Uni.handleSwap emptyStore orphanEvent = emptyStore :=
  handleSwap_discards_unresolved (fun _ _ => 0) emptyStore orphanEvent emptyStore orphanEvent
    (Or.inl rfl) (Or.inl rfl)

/-- C3 counterexample: at timestamp 2 ^ 31 on a resolvable pool the handler
stores toI32 of the timestamp, which has wrapped to -2 ^ 31, so the price
record does not carry the event timestamp as the claim states for every
swap event. -/
theorem handleSwap_price_snapshot_ts_cex :
    wrapEvent.timestamp = 2147483648
    ∧ ((V3.handleSwap (fun _ _ => 0) snapshotStore wrapEvent).priceHours
        (hourKey (toLowerCase wrapEvent.address) wrapEvent.timestamp)).map
          PoolPriceHourE.updatedAt = some (-2147483648)
    ∧ ¬ ((V3.handleSwap (fun _ _ => 0) snapshotStore wrapEvent).priceHours
        (hourKey (toLowerCase wrapEvent.address) wrapEvent.timestamp)).map
          PoolPriceHourE.updatedAt = some wrapEvent.timestamp := by
  refine ⟨rfl, rfl, ?_⟩
  decide

/-- C3 amended: on a resolvable pool the v3 handler overwrites the hour-level
price record with the sqrt price of the event, the two prices obtained from
pricesFromSqrt applied to the sqrt price of the event and the two token
decimal counts, the liquidity of the event, and the i32 conversion toI32 of
the event timestamp, which equals the timestamp itself exactly when the
timestamp lies in [0, 2 ^ 31). -/
theorem handleSwap_price_snapshot
    (bal : String → String → ℤ) (w : Store) (e : SwapEvent) (pool : PoolE) (t0 t1 : TokenE)
    (hp : w.pools (toLowerCase e.address) = some pool)
    (h0 : w.tokens pool.token0 = some t0)
    (h1 : w.tokens pool.token1 = some t1) :
    ∃ r : PoolPriceHourE,
      (V3.handleSwap bal w e).priceHours (hourKey (toLowerCase e.address) e.timestamp) = some r
      ∧ r.sqrtPriceX96 = e.sqrtPriceX96
      ∧ r.price0 = (pricesFromSqrt e.sqrtPriceX96 t0.decimals t1.decimals).1
      ∧ r.price1 = (pricesFromSqrt e.sqrtPriceX96 t0.decimals t1.decimals).2
      ∧ r.liquidity = e.liquidity
      ∧ r.updatedAt = toI32 e.timestamp
      ∧ (0 ≤ e.timestamp → e.timestamp < 2 ^ 31 → r.updatedAt = e.timestamp) := by
  simp only [V3.handleSwap, hp, h0, h1]
  simp only [upd]
  rw [if_pos trivial]
  exact ⟨_, rfl, rfl, rfl, rfl, rfl, rfl,
    fun hts0 hts1 => toI32_of_lt e.timestamp hts0 hts1⟩

/-- Witness for the amended C3 on the concrete snapshot state and event. -/
theorem handleSwap_price_snapshot_witness :
    ∃ r : PoolPriceHourE,
      (V3.handleSwap (fun _ _ => 0) snapshotStore snapshotEvent).priceHours
          (hourKey (toLowerCase snapshotEvent.address) snapshotEvent.timestamp) = some r
      ∧ r.sqrtPriceX96 = snapshotEvent.sqrtPriceX96
      ∧ r.price0 = (pricesFromSqrt snapshotEvent.sqrtPriceX96
          (TokenE.mk 18).decimals (TokenE.mk 6).decimals).1
      ∧ r.price1 = (pricesFromSqrt snapshotEvent.sqrtPriceX96
          (TokenE.mk 18).decimals (TokenE.mk 6).decimals).2
      ∧ r.liquidity = snapshotEvent.liquidity
      ∧ r.updatedAt = toI32 snapshotEvent.timestamp
      ∧ (0 ≤ snapshotEvent.timestamp → snapshotEvent.timestamp < 2 ^ 31 →
          r.updatedAt = snapshotEvent.timestamp) :=
  handleSwap_price_snapshot (fun _ _ => 0) snapshotStore snapshotEvent
    { token0 := "a", token1 := "b" } { decimals := 18 } { decimals := 6 }
    (by decide) (by decide) (by decide)





/-- C2: with neither side of pool p stable the USD valuation is indeterminate,
yet the v3 handler overwrites the stored TVL 5 of both bucket rows with the
zero the local tvlUSD variable was initialised to, contradicting the
leave-previous-value rule stated by the spec. -/
theorem tvl_zeroed_when_indeterminate_bug :
    isStable "a" = false ∧ isStable "b" = false
    ∧ (tvlStore.hours (hourKey "p" 0)).map PoolHourDataE.tvlUSD = some 5
    ∧ (tvlStore.days (dayKey "p" 0)).map PoolDayDataE.tvlUSD = some 5
    ∧ ((V3.handleSwap (fun _ _ => 0) tvlStore tvlEvent).hours (hourKey "p" 0)).map
        PoolHourDataE.tvlUSD = some 0
    ∧ ((V3.handleSwap (fun _ _ => 0) tvlStore tvlEvent).days (dayKey "p" 0)).map
        PoolDayDataE.tvlUSD = some 0 := by
  refine ⟨by decide, by decide, ?_, ?_, ?_, ?_⟩ <;> rfl


/-- The swap handler of the unified mapping never touches the pool or token
tables. -/
lemma Uni.handleSwap_pools_tokens (w : Store) (e : SwapEvent) :
    (Uni.handleSwap w e).pools = w.pools ∧ (Uni.handleSwap w e).tokens = w.tokens := by
  cases hp : w.pools (toLowerCase e.address) with
  | none => simp [Uni.handleSwap, hp]
  | some pool =>
    cases h0 : w.tokens pool.token0 <;> cases h1 : w.tokens pool.token1 <;>
      simp [Uni.handleSwap, hp, h0, h1]

/-- Resolution only consults the pool and token tables. -/
lemma Uni.resolvesB_congr (w w0 : Store) (hp : w.pools = w0.pools)
    (ht : w.tokens = w0.tokens) (e : SwapEvent) :
    Uni.resolvesB w e = Uni.resolvesB w0 e := by
  unfold Uni.resolvesB
  rw [hp, ht]

/-- The decimal-adjusted amounts only consult the pool and token tables. -/
lemma Uni.amt_congr (w w0 : Store) (hp : w.pools = w0.pools)
    (ht : w.tokens = w0.tokens) (e : SwapEvent) :
    Uni.amt0 w e = Uni.amt0 w0 e ∧ Uni.amt1 w e = Uni.amt1 w0 e := by
  unfold Uni.amt0 Uni.amt1
  rw [hp, ht]
  exact ⟨rfl, rfl⟩

/-- applyOne only consults the pool and token tables of its first argument. -/
lemma Uni.applyOne_congr (w w0 : Store) (hp : w.pools = w0.pools)
    (ht : w.tokens = w0.tokens) (o : Option PoolHourDataE) (e : SwapEvent) :
    Uni.applyOne w o e = Uni.applyOne w0 o e := by
  unfold Uni.applyOne
  rw [(Uni.amt_congr w w0 hp ht e).1, (Uni.amt_congr w w0 hp ht e).2]

/-- A swap whose hour bucket id differs from k leaves the hour row of k alone,
as does a swap that does not resolve. -/
lemma Uni.handleSwap_hours_frame (w : Store) (e : SwapEvent) (k : String)
    (hk : Uni.eHourKey e ≠ k) :
    (Uni.handleSwap w e).hours k = w.hours k := by
  cases hp : w.pools (toLowerCase e.address) with
  | none => simp [Uni.handleSwap, hp]
  | some pool =>
    cases h0 : w.tokens pool.token0 with
    | none => simp [Uni.handleSwap, hp, h0]
    | some t0 =>
      cases h1 : w.tokens pool.token1 with
      | none => simp [Uni.handleSwap, hp, h0, h1]
      | some t1 =>
        simp only [Uni.handleSwap, hp, h0, h1]
        simp only [upd]
        rw [if_neg (fun h => hk h.symm)]

/-- A resolving swap with hour bucket id k rewrites the hour row of k to the
applyOne update of its previous value. -/
lemma Uni.handleSwap_hours_step (w : Store) (e : SwapEvent) (k : String)
    (hk : Uni.eHourKey e = k) (hres : Uni.resolvesB w e = true) :
    (Uni.handleSwap w e).hours k = some (Uni.applyOne w (w.hours k) e) := by
  unfold Uni.resolvesB at hres
  subst hk
  cases hp : w.pools (toLowerCase e.address) with
  | none =>
    rw [hp] at hres
    simp at hres
  | some pool =>
    rw [hp] at hres
    simp only [Bool.and_eq_true, Option.isSome_iff_exists] at hres
    obtain ⟨⟨t0, h0⟩, t1, h1⟩ := hres
    simp only [Uni.handleSwap, hp, h0, h1]
    simp only [upd, Uni.eHourKey]
    rw [if_pos trivial]
    congr 1
    unfold Uni.applyOne Uni.amt0 Uni.amt1 Uni.ensureHour
    simp only [hp, h0, h1]

/-- Folding the handler over any event list changes the hour row of k exactly by
one applyOne step per resolving event whose hour bucket id is k. -/
lemma Uni.foldl_handleSwap_hours (k : String) (w0 : Store) :
    ∀ (evs : List SwapEvent) (w : Store),
      w.pools = w0.pools → w.tokens = w0.tokens →
      (∀ e ∈ evs, Uni.eHourKey e = k → Uni.resolvesB w0 e = true) →
      (List.foldl Uni.handleSwap w evs).hours k
        = (evs.filter (fun e => Uni.eHourKey e == k)).foldl
            (fun o e => some (Uni.applyOne w0 o e)) (w.hours k) := by
  intro evs
  induction evs with
  | nil =>
    intro w _ _ _
    rfl
  | cons e evs ih =>
    intro w hpw htw hres
    have hpw2 : (Uni.handleSwap w e).pools = w0.pools := by
      rw [(Uni.handleSwap_pools_tokens w e).1, hpw]
    have htw2 : (Uni.handleSwap w e).tokens = w0.tokens := by
      rw [(Uni.handleSwap_pools_tokens w e).2, htw]
    have hres2 : ∀ e2 ∈ evs, Uni.eHourKey e2 = k → Uni.resolvesB w0 e2 = true :=
      fun e2 he2 => hres e2 (List.mem_cons_of_mem _ he2)
    rw [List.foldl_cons, ih (Uni.handleSwap w e) hpw2 htw2 hres2]
    by_cases hk : Uni.eHourKey e = k
    · have hres_e : Uni.resolvesB w e = true := by
        rw [Uni.resolvesB_congr w w0 hpw htw]
        exact hres e (List.mem_cons_self _ _) hk
      rw [Uni.handleSwap_hours_step w e k hk hres_e]
      rw [Uni.applyOne_congr w w0 hpw htw]
      have hfe : (e :: evs).filter (fun e => Uni.eHourKey e == k)
          = e :: evs.filter (fun e => Uni.eHourKey e == k) := by
        simp [List.filter_cons, hk]
      rw [hfe, List.foldl_cons]
    · rw [Uni.handleSwap_hours_frame w e k hk]
      have hfe : (e :: evs).filter (fun e => Uni.eHourKey e == k)
          = evs.filter (fun e => Uni.eHourKey e == k) := by
        simp [List.filter_cons, hk]
      rw [hfe]

/-- Closed form of iterated applyOne from an existing row: the swap count grows
by the list length and the volumes by the sums of the adjusted amounts. -/
lemma Uni.foldl_applyOne_closed (w0 : Store) :
    ∀ (es : List SwapEvent) (r : PoolHourDataE),
      es.foldl (fun o e => some (Uni.applyOne w0 o e)) (some r)
        = some { r with
            volumeToken0 := r.volumeToken0 + (es.map (Uni.amt0 w0)).sum,
            volumeToken1 := r.volumeToken1 + (es.map (Uni.amt1 w0)).sum,
            swapCount := r.swapCount + es.length } := by
  intro es
  induction es with
  | nil =>
    intro r
    simp
  | cons e es ih =>
    intro r
    rw [List.foldl_cons, ih]
    simp only [Uni.applyOne, List.map_cons, List.sum_cons, List.length_cons,
      Option.some.injEq]
    refine PoolHourDataE.mk.injEq .. ▸ ?_
    simp [add_assoc]
    omega

/-- C6: folding any event sequence over a state whose hour bucket k is fresh
yields, at k, a row created on the first k-event with zeroed numeric fields
whose swap count is exactly the number of k-events and whose volume fields
are exactly the sums of the decimal-adjusted absolute amounts of the
k-events, regardless of interleaved events for other bucket keys; with no
k-event the row is never created. -/
theorem applyVolume_accumulates (w : Store) (evs : List SwapEvent) (k : String)
    (hfresh : w.hours k = none)
    (hres : ∀ e ∈ evs, Uni.eHourKey e = k → Uni.resolvesB w e = true) :
    ((evs.filter (fun e => Uni.eHourKey e == k)) = [] →
        (List.foldl Uni.handleSwap w evs).hours k = none)
    ∧ ∀ e0 es, (evs.filter (fun e => Uni.eHourKey e == k)) = e0 :: es →
        (List.foldl Uni.handleSwap w evs).hours k
          = some { pool := toLowerCase e0.address,
                   hourStartUnix := hourId e0.timestamp,
                   volumeToken0 := ((e0 :: es).map (Uni.amt0 w)).sum,
                   volumeToken1 := ((e0 :: es).map (Uni.amt1 w)).sum,
                   swapCount := ((e0 :: es) : List SwapEvent).length,
                   volumeUSD := 0, feesUSD := 0, tvlUSD := 0 } := by
  have hfold := Uni.foldl_handleSwap_hours k w evs w rfl rfl hres
  rw [hfresh] at hfold
  constructor
  · intro hnil
    rw [hfold, hnil]
    rfl
  · intro e0 es hcons
    rw [hfold, hcons, List.foldl_cons]
    rw [Uni.foldl_applyOne_closed]
    simp only [Uni.applyOne, List.map_cons, List.sum_cons, List.length_cons,
      Option.some.injEq]
    simp [add_assoc]
    omega





/-- Witness for C6: two swaps on pool p with one interleaved foreign event yield
the bucket row for key p-0 with swap count 2 and the summed volumes. -/
theorem applyVolume_accumulates_witness :
    (List.foldl Uni.handleSwap volStore [volEvent1, volEventOther, volEvent2]).hours "p-0"
      = some { pool := toLowerCase volEvent1.address,
               hourStartUnix := hourId volEvent1.timestamp,
               volumeToken0 := ([volEvent1, volEvent2].map (Uni.amt0 volStore)).sum,
               volumeToken1 := ([volEvent1, volEvent2].map (Uni.amt1 volStore)).sum,
               swapCount := ([volEvent1, volEvent2] : List SwapEvent).length,
               volumeUSD := 0, feesUSD := 0, tvlUSD := 0 } :=
  (applyVolume_accumulates volStore [volEvent1, volEventOther, volEvent2] "p-0"
      (by decide) (by decide)).2 volEvent1 [volEvent2] (by decide)
